import Mathlib

/-!
# GithubAnalyzer — contribution-matrix core, shallow embedding

This file embeds the contribution-matrix builder and the intensity
classifier of `src/src/App.tsx` (functions `getContributionMatrix`,
lines 130–148, and `getCommitIntensity`, lines 122–128) and proves the
specified properties about them.

Modelling conventions:

* A JavaScript `Date` value is its timestamp in milliseconds since the
  Unix epoch, an `Int`.  An *Invalid Date* (`NaN` timestamp, produced by
  `new Date(s)` on a malformed string) is modelled as `Option.none`; a
  record therefore carries the parse result `Option Int` of its `date`
  string (the ISO-8601 parse itself is host behaviour, outside the
  repository).  Every JS comparison against `NaN` is false, so a `none`
  date fails the window test and the record is skipped.
* The host timezone is modelled as UTC, so `getFullYear`, `setFullYear`
  and `getDay` are the UTC-based civil-calendar operations.  Civil-date
  conversions use the standard era-based Gregorian algorithms, which
  agree with ECMAScript `YearFromTime`/`MakeDay`; in particular
  `days_from_civil` is linear in the day argument, which reproduces the
  `MakeDay` rollover (Feb 29 of a non-leap year becomes Mar 1).
* The wall-clock read `const today = new Date()` at line 132 is passed
  in as the explicit argument `today`.
-/

namespace GithubAnalyzer

/-- Milliseconds per day; `24 * 60 * 60 * 1000`. -/
def msPerDay : Int := 24 * 60 * 60 * 1000

/-- Milliseconds per week, the divisor `7 * 24 * 60 * 60 * 1000` at line 139. -/
def msPerWeek : Int := 7 * 24 * 60 * 60 * 1000

/-- A Gregorian civil date (year, month `1..12`, day `1..31`). -/
structure CivilDate where
  year : Int
  month : Int
  day : Int
deriving DecidableEq

/-- Days since the Unix epoch of a civil date (era-based Gregorian
algorithm).  Linear in `d`, matching ECMAScript `MakeDay`. -/
def days_from_civil (y m d : Int) : Int :=
  let y2 := if m ≤ 2 then y - 1 else y
  let era := y2 / 400
  let yoe := y2 - era * 400
  let mp := if 2 < m then m - 3 else m + 9
  let doy := (153 * mp + 2) / 5 + d - 1
  let doe := yoe * 365 + yoe / 4 - yoe / 100 + doy
  era * 146097 + doe - 719468

/-- Era (400-year Gregorian cycle) containing shifted day number `z2`. -/
def eraOf (z2 : Int) : Int := z2 / 146097

/-- Day of era, in `0..146096`. -/
def doeOf (z2 : Int) : Int := z2 - eraOf z2 * 146097

/-- Year of era (March-based), in `0..399`, from the day of era. -/
def yoeOfDoe (doe : Int) : Int :=
  (doe - doe / 1460 + doe / 36524 - doe / 146096) / 365

/-- Day of (March-based) year, in `0..365`, from the day of era. -/
def doyOfDoe (doe : Int) : Int :=
  doe - (365 * yoeOfDoe doe + yoeOfDoe doe / 4 - yoeOfDoe doe / 100)

/-- Shifted month (`0` = March … `11` = February) from the day of year. -/
def mpOfDoy (doy : Int) : Int := (5 * doy + 2) / 153

/-- Civil date of a day number (days since the Unix epoch), the inverse
era-based Gregorian algorithm. -/
def civil_from_days (z : Int) : CivilDate :=
  let z2 := z + 719468
  let doe := doeOf z2
  let y := yoeOfDoe doe + eraOf z2 * 400
  let doy := doyOfDoe doe
  let mp := mpOfDoy doy
  let d := doy - (153 * mp + 2) / 5 + 1
  let m := if mp < 10 then mp + 3 else mp - 9
  ⟨if m ≤ 2 then y + 1 else y, m, d⟩

/-- ECMAScript `Day(t)`: the day number containing timestamp `t`. -/
def dayNumber (t : Int) : Int := t / msPerDay

/-- ECMAScript `TimeWithinDay(t)`: milliseconds of `t` past its UTC midnight. -/
def timeWithinDay (t : Int) : Int := t % msPerDay

/-- `Date.prototype.getFullYear` with the host timezone modelled as UTC. -/
def getFullYear (t : Int) : Int := (civil_from_days (dayNumber t)).year

/-- `Date.prototype.setFullYear y` with the host timezone modelled as UTC:
keep month, day-of-month and time of day, replace the year. -/
def setFullYear (t y : Int) : Int :=
  let c := civil_from_days (dayNumber t)
  days_from_civil y c.month c.day * msPerDay + timeWithinDay t

/-- `Date.prototype.getDay` with the host timezone modelled as UTC:
day of week `0..6`, `0` = Sunday (the epoch day was a Thursday, `4`). -/
def getDay (t : Int) : Int := (dayNumber t + 4) % 7

/-- One calendar day of contribution activity: interface `ContributionDay`
(source lines 16–19).  The `date` field holds the result of parsing the
record's ISO-8601 `date` string with `new Date(day.date)` (line 137):
`some t` for a valid timestamp, `none` for an Invalid Date produced by a
malformed string. -/
structure ContributionDay where
  contributionCount : Nat
  date : Option Int
deriving DecidableEq

/-- Class string returned by `getCommitIntensity` for `count === 0` (line 123). -/
def noneClass : String :=
  "bg-[#161b22] border border-[#2d333b] hover:bg-[#1c2129] transition-all duration-300 hover:scale-150 hover:z-10"

/-- Class string returned by `getCommitIntensity` for `count <= 3` (line 124). -/
def lowClass : String :=
  "bg-[#0e4429] border border-[#1b4b2d] hover:bg-[#155d38] transition-all duration-300 hover:scale-150 hover:z-10"

/-- Class string returned by `getCommitIntensity` for `count <= 6` (line 125). -/
def mediumClass : String :=
  "bg-[#006d32] border border-[#26a641] hover:bg-[#008d41] transition-all duration-300 hover:scale-150 hover:z-10"

/-- Class string returned by `getCommitIntensity` for `count <= 9` (line 126). -/
def highClass : String :=
  "bg-[#26a641] border border-[#39d353] hover:bg-[#2fc04c] transition-all duration-300 hover:scale-150 hover:z-10"

/-- Class string returned by `getCommitIntensity` for all larger counts (line 127). -/
def veryHighClass : String :=
  "bg-[#39d353] border border-[#4ae168] hover:bg-[#4ae168] transition-all duration-300 hover:scale-150 hover:z-10"

/-- `getCommitIntensity` (lines 122–128): map a contribution count to the
CSS class string of its intensity tier. -/
def getCommitIntensity (count : Nat) : String :=
  if count = 0 then noneClass
  else if count ≤ 3 then lowClass
  else if count ≤ 6 then mediumClass
  else if count ≤ 9 then highClass
  else veryHighClass

/-- The grid type built at line 131: 52 week columns, each a list of 7
optional day cells (`ContributionDay[][]` with `null` for empty). -/
abbrev ContributionMatrix := List (List (Option ContributionDay))

/-- `Array(52).fill(null).map(() => Array(7).fill(null))` (line 131). -/
def emptyMatrix : ContributionMatrix := List.replicate 52 (List.replicate 7 none)

/-- Read cell `[c][r]` of the grid; an out-of-range read gives `none`,
matching JS `undefined`. -/
def getCell (m : ContributionMatrix) (c r : Nat) : Option ContributionDay :=
  (m.getD c []).getD r none

/-- The assignment `matrix[51 - weekIndex][dayIndex] = day` (line 142) for
integer indices.  A negative index in JS would create a non-index property
and never touches the 52×7 cells, so the grid is returned unchanged. -/
def setCell (m : ContributionMatrix) (c r : Int) (day : ContributionDay) :
    ContributionMatrix :=
  if 0 ≤ c ∧ 0 ≤ r then
    m.set c.toNat ((m.getD c.toNat []).set r.toNat (some day))
  else m

/-- `Math.floor((today.getTime() - date.getTime()) / (7 * 24 * 60 * 60 * 1000))`
(line 139). -/
def weekIndexOf (today date : Int) : Int := (today - date) / msPerWeek

/-- `oneYearAgo` (lines 133–134): a copy of `today` whose year has been
decremented with `setFullYear(today.getFullYear() - 1)`. -/
def oneYearAgo (today : Int) : Int := setFullYear today (getFullYear today - 1)

/-- The body of the `contributionData.forEach` loop (lines 136–145),
processing one record against the grid accumulated so far. -/
def stepDay (today yearAgo : Int) (matrix : ContributionMatrix)
    (day : ContributionDay) : ContributionMatrix :=
  match day.date with
  | none => matrix
  | some date =>
    if yearAgo ≤ date ∧ date ≤ today then
      if weekIndexOf today date < 52 then
        setCell matrix (51 - weekIndexOf today date) (getDay date) day
      else matrix
    else matrix

/-- `getContributionMatrix` (lines 130–148).  The wall-clock reading
`new Date()` of line 132 is the parameter `today`. -/
def getContributionMatrix (contributionData : List ContributionDay)
    (today : Int) : ContributionMatrix :=
  contributionData.foldl (stepDay today (oneYearAgo today)) emptyMatrix

/-- Week offset computed on UTC-normalised day boundaries: the number of
whole days between the UTC day of `date` and the UTC day of `today`,
divided by 7 with floor rounding (spec §4.1 step c). -/
def specWeekOffset (today date : Int) : Int :=
  (dayNumber today - dayNumber date) / 7

/-- The cell `(column, row)` that the loop body writes for a record, or
`none` when the record is skipped. -/
def placedCell (today yearAgo : Int) (day : ContributionDay) :
    Option (Nat × Nat) :=
  match day.date with
  | none => none
  | some date =>
    if yearAgo ≤ date ∧ date ≤ today then
      if weekIndexOf today date < 52 then
        some ((51 - weekIndexOf today date).toNat, (getDay date).toNat)
      else none
    else none

/-- The last record of `data`, in input order, that the loop writes to
cell `(c, r)`. -/
def lastPlaced (today yearAgo : Int) (data : List ContributionDay)
    (c r : Nat) : Option ContributionDay :=
  data.foldl
    (fun acc day =>
      if placedCell today yearAgo day = some (c, r) then some day else acc)
    none

/-- A grid of 52 columns whose columns all have 7 cells. -/
def WellShaped (m : ContributionMatrix) : Prop :=
  m.length = 52 ∧ ∀ i, i < 52 → (m.getD i []).length = 7

/-- The day of era lies in `0..146096`. -/
theorem doeOf_bounds (z2 : Int) : 0 ≤ doeOf z2 ∧ doeOf z2 ≤ 146096 := by
  unfold doeOf eraOf
  omega

set_option maxHeartbeats 8000000 in
/-- Year-of-era extraction is correct: the era-based inverse formula for
`yoe` places `doe` inside year `yoe` of its era. -/
theorem yoe_correct (doe yoe : Int) (h0 : 0 ≤ doe) (h1 : doe ≤ 146096)
    (hy : yoe = (doe - doe / 1460 + doe / 36524 - doe / 146096) / 365) :
    0 ≤ yoe ∧ yoe ≤ 399 ∧ 365 * yoe + yoe / 4 - yoe / 100 ≤ doe ∧
      doe - (365 * yoe + yoe / 4 - yoe / 100) ≤ 365 := by
  have hb : 0 ≤ yoe ∧ yoe ≤ 399 := by omega
  refine ⟨hb.1, hb.2, ?_⟩
  obtain ⟨hb0, hb1⟩ := hb
  interval_cases yoe <;> omega

/-- The day of (March-based) year lies in `0..365`. -/
theorem doyOfDoe_bounds (doe : Int) (h0 : 0 ≤ doe) (h1 : doe ≤ 146096) :
    0 ≤ doyOfDoe doe ∧ doyOfDoe doe ≤ 365 := by
  have h := yoe_correct doe (yoeOfDoe doe) h0 h1 rfl
  unfold doyOfDoe
  omega

/-- Month extraction is correct: the inverse formula for the shifted
month `mp` places `doy` inside month `mp` of its (March-based) year. -/
theorem mp_correct (doy mp : Int) (h0 : 0 ≤ doy) (h1 : doy ≤ 365)
    (hm : mp = (5 * doy + 2) / 153) :
    0 ≤ mp ∧ mp ≤ 11 ∧ (153 * mp + 2) / 5 ≤ doy ∧ doy - (153 * mp + 2) / 5 ≤ 30 := by
  omega

/-- Splitting `yoe + era * 400` back into year of era and era. -/
theorem era_decomp (yoe era : Int) (h0 : 0 ≤ yoe) (h1 : yoe ≤ 399) :
    (yoe + era * 400) / 400 = era ∧
    (yoe + era * 400 - (yoe + era * 400) / 400 * 400) / 4 = yoe / 4 ∧
    (yoe + era * 400 - (yoe + era * 400) / 400 * 400) / 100 = yoe / 100 := by
  omega

/-- Variant of `era_decomp` for the syntactic form produced by the
January/February branch (year incremented then decremented). -/
theorem era_decomp_pred (yoe era : Int) (h0 : 0 ≤ yoe) (h1 : yoe ≤ 399) :
    (yoe + era * 400 + 1 - 1) / 400 = era ∧
    (yoe + era * 400 + 1 - 1 - (yoe + era * 400 + 1 - 1) / 400 * 400) / 4 = yoe / 4 ∧
    (yoe + era * 400 + 1 - 1 - (yoe + era * 400 + 1 - 1) / 400 * 400) / 100
      = yoe / 100 := by
  omega

/-- `days_from_civil` is a left inverse of `civil_from_days`. -/
theorem days_from_civil_of_civil_from_days (z : Int) :
    days_from_civil (civil_from_days z).year (civil_from_days z).month
      (civil_from_days z).day = z := by
  have hdoe := doeOf_bounds (z + 719468)
  have hyoe := yoe_correct (doeOf (z + 719468)) (yoeOfDoe (doeOf (z + 719468)))
    hdoe.1 hdoe.2 rfl
  have hdoy := doyOfDoe_bounds (doeOf (z + 719468)) hdoe.1 hdoe.2
  have hmp := mp_correct (doyOfDoe (doeOf (z + 719468)))
    (mpOfDoy (doyOfDoe (doeOf (z + 719468)))) hdoy.1 hdoy.2 rfl
  have hera : eraOf (z + 719468) = (z + 719468) / 146097 := rfl
  have hdoe2 : doeOf (z + 719468) = z + 719468 - eraOf (z + 719468) * 146097 := rfl
  have hdoy2 : doyOfDoe (doeOf (z + 719468))
      = doeOf (z + 719468) - (365 * yoeOfDoe (doeOf (z + 719468))
          + yoeOfDoe (doeOf (z + 719468)) / 4
          - yoeOfDoe (doeOf (z + 719468)) / 100) := rfl
  have hmp2 : mpOfDoy (doyOfDoe (doeOf (z + 719468)))
      = (5 * doyOfDoe (doeOf (z + 719468)) + 2) / 153 := rfl
  have hsplit := era_decomp (yoeOfDoe (doeOf (z + 719468))) (eraOf (z + 719468))
    hyoe.1 hyoe.2.1
  have hsplit2 := era_decomp_pred (yoeOfDoe (doeOf (z + 719468))) (eraOf (z + 719468))
    hyoe.1 hyoe.2.1
  simp only [civil_from_days, days_from_civil]
  split_ifs <;> omega

/-- Moving a civil date back one year moves its day number back by at
least 365 days (the gap is 365 or 366, for any month and day argument). -/
theorem days_from_civil_year_pred (y m d : Int) :
    days_from_civil (y - 1) m d + 365 ≤ days_from_civil y m d := by
  simp only [days_from_civil]
  split_ifs <;> omega

/-- `setFullYear` to the previous calendar year never moves a timestamp
forward; in fact it moves it back by at least 365 days. -/
theorem setFullYear_pred_le (t : Int) :
    setFullYear t (getFullYear t - 1) + 365 * msPerDay ≤ t := by
  have hrt := days_from_civil_of_civil_from_days (dayNumber t)
  have hgap := days_from_civil_year_pred (civil_from_days (dayNumber t)).year
    (civil_from_days (dayNumber t)).month (civil_from_days (dayNumber t)).day
  simp only [setFullYear, getFullYear, dayNumber, timeWithinDay, msPerDay] at *
  omega

/-- Reading back an index just written by `List.set`. -/
theorem getD_set_self {α : Type} (l : List α) (n : Nat) (a d : α)
    (h : n < l.length) : (l.set n a).getD n d = a := by
  induction l generalizing n with
  | nil => simp at h
  | cons x xs ih =>
    cases n with
    | zero => rfl
    | succ k =>
      simp only [List.length_cons] at h
      simpa using ih k (by omega)

/-- `List.set` leaves every other index unchanged. -/
theorem getD_set_ne {α : Type} (l : List α) (n k : Nat) (a d : α)
    (h : n ≠ k) : (l.set n a).getD k d = l.getD k d := by
  induction l generalizing n k with
  | nil => rfl
  | cons x xs ih =>
    cases n with
    | zero =>
      cases k with
      | zero => exact absurd rfl h
      | succ j => rfl
    | succ j =>
      cases k with
      | zero => rfl
      | succ i =>
        show (xs.set j a).getD i d = xs.getD i d
        exact ih j i fun hh => h (by omega)

/-- `List.set` past the end of the list is the identity. -/
theorem set_oob {α : Type} (l : List α) (n : Nat) (a : α)
    (h : l.length ≤ n) : l.set n a = l := by
  induction l generalizing n with
  | nil => rfl
  | cons x xs ih =>
    cases n with
    | zero => simp at h
    | succ k =>
      simp only [List.length_cons] at h
      show x :: xs.set k a = x :: xs
      rw [ih k (by omega)]

/-- `List.getD` past the end of the list gives the default. -/
theorem getD_oob {α : Type} (l : List α) (i : Nat) (d : α)
    (h : l.length ≤ i) : l.getD i d = d := by
  induction l generalizing i with
  | nil => rfl
  | cons x xs ih =>
    cases i with
    | zero => simp at h
    | succ k =>
      simp only [List.length_cons] at h
      show xs.getD k d = d
      exact ih k (by omega)

/-- `List.getD` on a replicated list gives the replicated element. -/
theorem getD_replicate {α : Type} (n i : Nat) (a d : α) (h : i < n) :
    (List.replicate n a).getD i d = a := by
  induction n generalizing i with
  | zero => omega
  | succ k ih =>
    cases i with
    | zero => rfl
    | succ j => exact ih j (by omega)

/-- An in-range `List.getD` is a member of the list. -/
theorem getD_mem {α : Type} (l : List α) (i : Nat) (d : α)
    (h : i < l.length) : l.getD i d ∈ l := by
  induction l generalizing i with
  | nil => simp at h
  | cons x xs ih =>
    cases i with
    | zero => exact List.mem_cons_self x xs
    | succ k =>
      simp only [List.length_cons] at h
      exact List.mem_cons_of_mem x (ih k (by omega))

/-- Every member of a list is an in-range `List.getD`. -/
theorem mem_exists_getD {α : Type} (l : List α) (a d : α) (h : a ∈ l) :
    ∃ i, i < l.length ∧ l.getD i d = a := by
  induction l with
  | nil => simp at h
  | cons x xs ih =>
    rcases List.mem_cons.mp h with h1 | h2
    · exact ⟨0, by simp, by simp [h1]⟩
    · obtain ⟨i, hi, he⟩ := ih h2
      exact ⟨i + 1, by simp only [List.length_cons]; omega, by simpa using he⟩

/-- The empty grid is well shaped. -/
theorem wellShaped_empty : WellShaped emptyMatrix := by
  constructor
  · simp [emptyMatrix]
  · intro i hi
    rw [emptyMatrix, getD_replicate _ _ _ _ hi]
    simp

/-- `setCell` preserves the grid shape. -/
theorem wellShaped_setCell (m : ContributionMatrix) (c r : Int)
    (day : ContributionDay) (hm : WellShaped m) :
    WellShaped (setCell m c r day) := by
  unfold setCell
  split
  · constructor
    · rw [List.length_set]
      exact hm.1
    · intro i hi
      by_cases hc : c.toNat = i
      · subst hc
        by_cases hlt : c.toNat < m.length
        · rw [getD_set_self _ _ _ _ hlt, List.length_set]
          exact hm.2 _ hi
        · rw [set_oob _ _ _ (by omega)]
          exact hm.2 _ hi
      · rw [getD_set_ne _ _ _ _ _ hc]
        exact hm.2 _ hi
  · exact hm

/-- The loop body preserves the grid shape. -/
theorem wellShaped_stepDay (today yearAgo : Int) (m : ContributionMatrix)
    (day : ContributionDay) (hm : WellShaped m) :
    WellShaped (stepDay today yearAgo m day) := by
  obtain ⟨cnt, dt⟩ := day
  cases dt with
  | none => exact hm
  | some date =>
    simp only [stepDay]
    split_ifs with h1 h2 <;>
      first
        | exact wellShaped_setCell _ _ _ _ hm
        | exact hm

/-- The whole loop preserves the grid shape. -/
theorem wellShaped_foldl (today yearAgo : Int)
    (data : List ContributionDay) :
    ∀ m, WellShaped m → WellShaped (data.foldl (stepDay today yearAgo) m) := by
  induction data with
  | nil => exact fun m hm => hm
  | cons d tl ih => exact fun m hm => ih _ (wellShaped_stepDay _ _ _ _ hm)

/-- Every cell of the empty grid is empty. -/
theorem getCell_empty (c r : Nat) : getCell emptyMatrix c r = none := by
  unfold getCell emptyMatrix
  by_cases hc : c < 52
  · rw [getD_replicate _ _ _ _ hc]
    by_cases hr : r < 7
    · rw [getD_replicate _ _ _ _ hr]
    · exact getD_oob _ _ _ (by rw [List.length_replicate]; omega)
  · rw [getD_oob (List.replicate 52 (List.replicate 7 (none : Option ContributionDay)))
      c [] (by rw [List.length_replicate]; omega)]
    rfl

/-- Day-of-week values lie in `0..6`. -/
theorem getDay_bounds (t : Int) : 0 ≤ getDay t ∧ getDay t ≤ 6 := by
  unfold getDay dayNumber msPerDay
  omega

/-- When the record's date is not in the future, the computed week index
is non-negative. -/
theorem weekIndexOf_nonneg (today date : Int) (h : date ≤ today) :
    0 ≤ weekIndexOf today date := by
  unfold weekIndexOf msPerWeek
  omega

/-- The window start lies on or before the reference instant. -/
theorem oneYearAgo_le (today : Int) : oneYearAgo today ≤ today := by
  have h := setFullYear_pred_le today
  unfold msPerDay at h
  unfold oneYearAgo
  omega

/-- A cell address produced by `placedCell` is inside the 52×7 grid. -/
theorem placedCell_lt (today yearAgo : Int) (day : ContributionDay)
    (c r : Nat) (h : placedCell today yearAgo day = some (c, r)) :
    c < 52 ∧ r < 7 := by
  obtain ⟨cnt, dt⟩ := day
  cases dt with
  | none => simp [placedCell] at h
  | some date =>
    simp only [placedCell] at h
    split_ifs at h with h1 h2
    have h3 := weekIndexOf_nonneg today date h1.2
    have h4 := getDay_bounds date
    simp only [Option.some.injEq, Prod.mk.injEq] at h
    omega

/-- Reading back the cell just written by `setCell`. -/
theorem getCell_setCell_self (m : ContributionMatrix) (ci ri : Int)
    (day : ContributionDay) (hm : WellShaped m) (hc0 : 0 ≤ ci)
    (hcc : ci.toNat < 52) (hr0 : 0 ≤ ri) (hrr : ri.toNat < 7) :
    getCell (setCell m ci ri day) ci.toNat ri.toNat = some day := by
  unfold setCell getCell
  rw [if_pos ⟨hc0, hr0⟩]
  rw [getD_set_self _ _ _ _ (by rw [hm.1]; exact hcc)]
  rw [getD_set_self _ _ _ _ (by rw [hm.2 _ hcc]; exact hrr)]

/-- `setCell` leaves every other cell unchanged. -/
theorem getCell_setCell_ne (m : ContributionMatrix) (ci ri : Int)
    (day : ContributionDay) (c r : Nat)
    (hne : (ci.toNat, ri.toNat) ≠ (c, r)) :
    getCell (setCell m ci ri day) c r = getCell m c r := by
  unfold setCell
  split_ifs with hg
  · unfold getCell
    by_cases hcc : ci.toNat = c
    · subst hcc
      have hrn : ri.toNat ≠ r := fun hh => hne (by rw [hh])
      by_cases hlt : ci.toNat < m.length
      · rw [getD_set_self _ _ _ _ hlt, getD_set_ne _ _ _ _ _ hrn]
      · rw [set_oob _ _ _ (by omega)]
    · rw [getD_set_ne _ _ _ _ _ hcc]
  · rfl

/-- A skipped record leaves the grid unchanged. -/
theorem stepDay_skip (today yearAgo : Int) (m : ContributionMatrix)
    (day : ContributionDay) (h : placedCell today yearAgo day = none) :
    stepDay today yearAgo m day = m := by
  obtain ⟨cnt, dt⟩ := day
  cases dt with
  | none => rfl
  | some date =>
    simp only [placedCell] at h
    simp only [stepDay]
    split_ifs at h ⊢ with h1 h2 <;> rfl

/-- One loop iteration, seen through `getCell`: the target cell of the
record is overwritten, every other cell survives. -/
theorem getCell_stepDay (today yearAgo : Int) (m : ContributionMatrix)
    (day : ContributionDay) (c r : Nat) (hm : WellShaped m)
    (hc : c < 52) (hr : r < 7) :
    getCell (stepDay today yearAgo m day) c r
      = if placedCell today yearAgo day = some (c, r) then some day
        else getCell m c r := by
  obtain ⟨cnt, dt⟩ := day
  cases dt with
  | none => simp [stepDay, placedCell]
  | some date =>
    simp only [stepDay, placedCell]
    split_ifs with h1 h2 he he2 he3
    · have h3 := weekIndexOf_nonneg today date h1.2
      have h4 := getDay_bounds date
      simp only [Option.some.injEq, Prod.mk.injEq] at he
      obtain ⟨hcn, hrn⟩ := he
      rw [← hcn, ← hrn]
      exact getCell_setCell_self m _ _ _ hm (by omega)
        (by omega) (by omega) (by omega)
    · refine getCell_setCell_ne m _ _ _ c r fun hh => he ?_
      rw [hh]
    · exact absurd he2 (by simp)
    · rfl
    · exact absurd he3 (by simp)
    · rfl

/-- The whole loop, seen through `getCell`: a cell holds the result of
folding the per-record overwrite decision over the input in order. -/
theorem getCell_foldl (today yearAgo : Int) (c r : Nat) (hc : c < 52)
    (hr : r < 7) :
    ∀ (data : List ContributionDay) (m : ContributionMatrix), WellShaped m →
      getCell (data.foldl (stepDay today yearAgo) m) c r
        = data.foldl
            (fun acc day =>
              if placedCell today yearAgo day = some (c, r) then some day
              else acc)
            (getCell m c r) := by
  intro data
  induction data with
  | nil => exact fun m _ => rfl
  | cons d tl ih =>
    intro m hm
    show getCell (tl.foldl _ (stepDay today yearAgo m d)) c r = _
    rw [ih _ (wellShaped_stepDay _ _ _ _ hm),
      getCell_stepDay _ _ _ _ _ _ hm hc hr]
    rfl

/-- In-range cells of the built grid are exactly `lastPlaced`. -/
theorem getCell_getContributionMatrix (data : List ContributionDay)
    (today : Int) (c r : Nat) (hc : c < 52) (hr : r < 7) :
    getCell (getContributionMatrix data today) c r
      = lastPlaced today (oneYearAgo today) data c r := by
  unfold getContributionMatrix lastPlaced
  rw [getCell_foldl today (oneYearAgo today) c r hc hr data emptyMatrix
    wellShaped_empty, getCell_empty]

/-- Whatever `lastPlaced` returns was a record of the input that the loop
body maps to exactly this cell (unless it came from the accumulator). -/
theorem lastPlaced_spec (today yearAgo : Int) (c r : Nat) :
    ∀ (data : List ContributionDay) (acc : Option ContributionDay)
      (day : ContributionDay),
      data.foldl
          (fun a d =>
            if placedCell today yearAgo d = some (c, r) then some d else a)
          acc = some day →
      (day ∈ data ∧ placedCell today yearAgo day = some (c, r))
        ∨ acc = some day := by
  intro data
  induction data with
  | nil => exact fun acc day h => Or.inr h
  | cons d tl ih =>
    intro acc day h
    rcases ih (if placedCell today yearAgo d = some (c, r) then some d
      else acc) day h with h1 | h2
    · exact Or.inl ⟨List.mem_cons_of_mem _ h1.1, h1.2⟩
    · by_cases hp : placedCell today yearAgo d = some (c, r)
      · rw [if_pos hp] at h2
        injection h2 with h3
        subst h3
        exact Or.inl ⟨List.mem_cons_self d tl, hp⟩
      · rw [if_neg hp] at h2
        exact Or.inr h2

/-- Cells outside the 52×7 range of a well-shaped grid read as `none`. -/
theorem getCell_oob (m : ContributionMatrix) (hm : WellShaped m) (c r : Nat)
    (h : ¬(c < 52 ∧ r < 7)) : getCell m c r = none := by
  unfold getCell
  by_cases hc : c < 52
  · have hr : ¬r < 7 := fun hr => h ⟨hc, hr⟩
    exact getD_oob _ _ _ (by rw [hm.2 c hc]; omega)
  · rw [getD_oob m c [] (by rw [hm.1]; omega)]
    rfl

/-- A record that is malformed or out of window is not placed. -/
theorem placedCell_none_of_out (today : Int) (day : ContributionDay)
    (h : day.date = none ∨ ∃ date, day.date = some date ∧
      (date < oneYearAgo today ∨ today < date)) :
    placedCell today (oneYearAgo today) day = none := by
  obtain ⟨cnt, dt⟩ := day
  cases dt with
  | none => rfl
  | some d0 =>
    rcases h with h | ⟨date, hd, hout⟩
    · simp at h
    · simp only [Option.some.injEq] at hd
      subst hd
      simp only [placedCell]
      have hnw : ¬(oneYearAgo today ≤ d0 ∧ d0 ≤ today) := by
        rcases hout with ho | ho <;> exact fun hw => by omega
      rw [if_neg hnw]

/-- A run of the loop over records that are all skipped leaves the grid
unchanged. -/
theorem foldl_skip (today yearAgo : Int) :
    ∀ (data : List ContributionDay) (m : ContributionMatrix),
      (∀ day ∈ data, placedCell today yearAgo day = none) →
      data.foldl (stepDay today yearAgo) m = m := by
  intro data
  induction data with
  | nil => exact fun m _ => rfl
  | cons d tl ih =>
    intro m h
    show tl.foldl (stepDay today yearAgo) (stepDay today yearAgo m d) = m
    rw [stepDay_skip _ _ _ _ (h d (List.mem_cons_self d tl))]
    exact ih m fun x hx => h x (List.mem_cons_of_mem d hx)

/-- The millisecond-based week index of the source equals the week offset
computed on UTC-normalised day boundaries whenever the record's timestamp
sits on a UTC day boundary (as the parse of an ISO date-only string does). -/
theorem weekIndex_eq_specWeekOffset (today date : Int)
    (hmid : date % msPerDay = 0) :
    weekIndexOf today date = specWeekOffset today date := by
  unfold msPerDay at hmid
  unfold weekIndexOf specWeekOffset dayNumber msPerDay msPerWeek
  omega

/-- C1: for an in-window record dated on a UTC day boundary, the loop's
week index equals `floor` of the UTC-normalised day difference over 7;
a record with week offset above 51 is dropped (the grid is unchanged),
and otherwise the record is placed at column `51 - weekOffset`, row equal
to its day of week under the standard 0–6 numbering. -/
theorem spec_C1 (today date : Int) (matrix : ContributionMatrix)
    (day : ContributionDay) (hdate : day.date = some date)
    (hmid : date % msPerDay = 0) (hlo : oneYearAgo today ≤ date)
    (hhi : date ≤ today) :
    weekIndexOf today date = specWeekOffset today date ∧
    (51 < specWeekOffset today date →
      stepDay today (oneYearAgo today) matrix day = matrix) ∧
    (specWeekOffset today date ≤ 51 →
      stepDay today (oneYearAgo today) matrix day
        = setCell matrix (51 - specWeekOffset today date) (getDay date) day) := by
  have heq := weekIndex_eq_specWeekOffset today date hmid
  obtain ⟨cnt, dt⟩ := day
  cases dt with
  | none => simp at hdate
  | some d0 =>
    simp only [Option.some.injEq] at hdate
    subst hdate
    refine ⟨heq, fun hgt => ?_, fun hle51 => ?_⟩
    · simp only [stepDay]
      rw [if_pos ⟨hlo, hhi⟩, if_neg (by omega)]
    · simp only [stepDay]
      rw [if_pos ⟨hlo, hhi⟩, if_pos (by omega), heq]

/-- Witness for C1 at the reference instant 2024-06-15T00:00Z and a
record dated 2024-06-01 (week offset 2, placed at column 49). -/
theorem spec_C1_witness :
    stepDay 1718409600000 (oneYearAgo 1718409600000) emptyMatrix
        (ContributionDay.mk 4 (some 1717200000000))
      = setCell emptyMatrix (51 - specWeekOffset 1718409600000 1717200000000)
          (getDay 1717200000000) (ContributionDay.mk 4 (some 1717200000000)) :=
  (spec_C1 1718409600000 1717200000000 emptyMatrix
      (ContributionDay.mk 4 (some 1717200000000)) rfl (by decide) (by decide)
      (by decide)).2.2 (by decide)

/-- C2: the classifier maps each count to exactly one of the five tier
classes, by the fixed thresholds 0, 1–3, 4–6, 7–9 and 10-and-above;
the five ranges are disjoint, contiguous and exhaustive over `Nat`. -/
theorem spec_C2 (count : Nat) :
    (getCommitIntensity count = noneClass ↔ count = 0) ∧
    (getCommitIntensity count = lowClass ↔ 1 ≤ count ∧ count ≤ 3) ∧
    (getCommitIntensity count = mediumClass ↔ 4 ≤ count ∧ count ≤ 6) ∧
    (getCommitIntensity count = highClass ↔ 7 ≤ count ∧ count ≤ 9) ∧
    (getCommitIntensity count = veryHighClass ↔ 10 ≤ count) := by
  unfold getCommitIntensity
  split_ifs with h1 h2 h3 h4 <;>
    refine ⟨?_, ?_, ?_, ?_, ?_⟩ <;>
      first
        | exact iff_of_true rfl (by omega)
        | exact iff_of_false (by decide) (by omega)

/-- C3: a record whose parsed date falls strictly before the window start
or strictly after the reference instant is skipped by the loop body and
appears in no cell of the returned grid. -/
theorem spec_C3 (data : List ContributionDay) (today : Int)
    (day : ContributionDay) (date : Int) (_hmem : day ∈ data)
    (hdate : day.date = some date)
    (hout : date < oneYearAgo today ∨ today < date) :
    (∀ m : ContributionMatrix, stepDay today (oneYearAgo today) m day = m) ∧
    ∀ c r : Nat, getCell (getContributionMatrix data today) c r ≠ some day := by
  have hnone : placedCell today (oneYearAgo today) day = none :=
    placedCell_none_of_out today day (Or.inr ⟨date, hdate, hout⟩)
  refine ⟨fun m => stepDay_skip _ _ _ _ hnone, fun c r h => ?_⟩
  have hshape : WellShaped (getContributionMatrix data today) :=
    wellShaped_foldl today (oneYearAgo today) data emptyMatrix wellShaped_empty
  by_cases hcr : c < 52 ∧ r < 7
  · rw [getCell_getContributionMatrix data today c r hcr.1 hcr.2] at h
    rcases lastPlaced_spec today (oneYearAgo today) c r data none day h with
      ⟨hmem2, hp⟩ | h2
    · rw [hnone] at hp
      exact Option.noConfusion hp
    · exact Option.noConfusion h2
  · rw [getCell_oob _ hshape c r hcr] at h
    exact Option.noConfusion h

/-- Witness for C3: a record dated 2023-06-14, one day before the window
start of reference instant 2024-06-15T00:00Z. -/
theorem spec_C3_witness :
    (stepDay 1718409600000 (oneYearAgo 1718409600000) emptyMatrix
        (ContributionDay.mk 3 (some 1686700800000)) = emptyMatrix) ∧
    getCell (getContributionMatrix [ContributionDay.mk 3 (some 1686700800000)]
        1718409600000) 0 0 ≠ some (ContributionDay.mk 3 (some 1686700800000)) :=
  ⟨(spec_C3 [ContributionDay.mk 3 (some 1686700800000)] 1718409600000
      (ContributionDay.mk 3 (some 1686700800000)) 1686700800000 (by decide) rfl
      (by decide)).1 emptyMatrix,
   (spec_C3 [ContributionDay.mk 3 (some 1686700800000)] 1718409600000
      (ContributionDay.mk 3 (some 1686700800000)) 1686700800000 (by decide) rfl
      (by decide)).2 0 0⟩

/-- C4: the builder is total and never fails; when every record is
malformed or out of window — in particular on empty input — it returns
the all-empty grid, every cell reads `none`, and an empty cell classifies
as the `None` tier. -/
theorem spec_C4 (today : Int) (data : List ContributionDay)
    (hdrop : ∀ day ∈ data, day.date = none ∨
      ∃ date, day.date = some date ∧
        (date < oneYearAgo today ∨ today < date)) :
    getContributionMatrix data today = emptyMatrix ∧
    (∀ c r : Nat, getCell (getContributionMatrix data today) c r = none) ∧
    getCommitIntensity 0 = noneClass := by
  have hmain : getContributionMatrix data today = emptyMatrix :=
    foldl_skip today (oneYearAgo today) data emptyMatrix
      (fun day hd => placedCell_none_of_out today day (hdrop day hd))
  exact ⟨hmain, fun c r => by rw [hmain]; exact getCell_empty c r, rfl⟩

/-- Witness for C4: a single malformed record degrades to the empty grid. -/
theorem spec_C4_witness :
    getContributionMatrix [ContributionDay.mk 5 none] 1718409600000
      = emptyMatrix ∧
    getCommitIntensity 0 = noneClass := by
  have hdrop : ∀ day ∈ [ContributionDay.mk 5 none],
      day.date = none ∨ ∃ date, day.date = some date ∧
        (date < oneYearAgo 1718409600000 ∨ 1718409600000 < date) := by
    intro day hd
    rcases List.mem_cons.mp hd with h | h
    · rw [h]
      exact Or.inl rfl
    · simp at h
  exact ⟨(spec_C4 1718409600000 [ContributionDay.mk 5 none] hdrop).1,
    (spec_C4 1718409600000 [ContributionDay.mk 5 none] hdrop).2.2⟩

/-- C5: for every input and reference instant the returned grid has
exactly 52 columns and every column has exactly 7 rows. -/
theorem spec_C5 (data : List ContributionDay) (today : Int) :
    (getContributionMatrix data today).length = 52 ∧
    ∀ col ∈ getContributionMatrix data today, col.length = 7 := by
  have hm : WellShaped (getContributionMatrix data today) :=
    wellShaped_foldl today (oneYearAgo today) data emptyMatrix wellShaped_empty
  refine ⟨hm.1, fun col hcol => ?_⟩
  obtain ⟨i, hi, he⟩ := mem_exists_getD _ col [] hcol
  rw [← he]
  rw [hm.1] at hi
  exact hm.2 i hi

/-- Witness for C5 on the empty input. -/
theorem spec_C5_witness :
    (getContributionMatrix [] 0).length = 52 ∧
    (List.replicate 7 (none : Option ContributionDay)).length = 7 :=
  ⟨(spec_C5 [] 0).1, (spec_C5 [] 0).2 (List.replicate 7 none) (by decide)⟩

/-- C6: a record dated exactly at the reference instant is placed in the
last column (index 51), in the row of that date's day of week. -/
theorem spec_C6 (today : Int) (matrix : ContributionMatrix)
    (day : ContributionDay) (hdate : day.date = some today) :
    stepDay today (oneYearAgo today) matrix day
      = setCell matrix 51 (getDay today) day := by
  obtain ⟨cnt, dt⟩ := day
  cases dt with
  | none => simp at hdate
  | some d0 =>
    simp only [Option.some.injEq] at hdate
    rw [hdate]
    simp only [stepDay]
    rw [if_pos ⟨oneYearAgo_le today, le_refl today⟩]
    have h0 : weekIndexOf today today = 0 := by
      unfold weekIndexOf msPerWeek
      omega
    rw [if_pos (by rw [h0]; norm_num), h0]
    norm_num

/-- Witness for C6 at the reference instant 2024-06-15T00:00Z. -/
theorem spec_C6_witness :
    stepDay 1718409600000 (oneYearAgo 1718409600000) emptyMatrix
        (ContributionDay.mk 3 (some 1718409600000))
      = setCell emptyMatrix 51 (getDay 1718409600000)
          (ContributionDay.mk 3 (some 1718409600000)) :=
  spec_C6 1718409600000 emptyMatrix
    (ContributionDay.mk 3 (some 1718409600000)) rfl

/-- C7: a record dated exactly 365 days before the reference instant has
week offset 52, which is greater than 51, so it falls under the
"otherwise dropped" arm of the placement rule and the grid is unchanged —
for every reference instant, in leap and non-leap years alike. -/
theorem spec_C7 (today : Int) (matrix : ContributionMatrix)
    (day : ContributionDay) (date : Int) (hdate : day.date = some date)
    (h365 : date = today - 365 * msPerDay) :
    51 < weekIndexOf today date ∧
    stepDay today (oneYearAgo today) matrix day = matrix := by
  subst h365
  have hw : weekIndexOf today (today - 365 * msPerDay) = 52 := by
    unfold weekIndexOf msPerWeek msPerDay
    omega
  refine ⟨by omega, ?_⟩
  obtain ⟨cnt, dt⟩ := day
  cases dt with
  | none => simp at hdate
  | some d0 =>
    simp only [Option.some.injEq] at hdate
    subst hdate
    simp only [stepDay]
    split_ifs with h1 h2
    · omega
    · rfl
    · rfl

/-- Witness for C7 at a leap-year reference (2024-06-15T00:00Z, window
containing Feb 29 2024) and a non-leap reference (2023-06-15T00:00Z). -/
theorem spec_C7_witness :
    (51 < weekIndexOf 1718409600000 1686873600000 ∧
      stepDay 1718409600000 (oneYearAgo 1718409600000) emptyMatrix
        (ContributionDay.mk 2 (some 1686873600000)) = emptyMatrix) ∧
    (51 < weekIndexOf 1686787200000 1655251200000 ∧
      stepDay 1686787200000 (oneYearAgo 1686787200000) emptyMatrix
        (ContributionDay.mk 2 (some 1655251200000)) = emptyMatrix) :=
  ⟨spec_C7 1718409600000 emptyMatrix
      (ContributionDay.mk 2 (some 1686873600000)) 1686873600000 rfl (by decide),
   spec_C7 1686787200000 emptyMatrix
      (ContributionDay.mk 2 (some 1655251200000)) 1655251200000 rfl (by decide)⟩

/-- C8: the construction is deterministic — it depends only on the input
records and the reference instant (the wall-clock read of the source is
the explicit `today` parameter of the embedding), so two calls with equal
records and equal instants return structurally equal grids. -/
theorem spec_C8 (data1 data2 : List ContributionDay) (t1 t2 : Int)
    (hdata : data1 = data2) (ht : t1 = t2) :
    getContributionMatrix data1 t1 = getContributionMatrix data2 t2 := by
  subst hdata
  subst ht
  rfl

/-- Witness for C8 on the empty input. -/
theorem spec_C8_witness :
    getContributionMatrix [] 0 = getContributionMatrix [] 0 :=
  spec_C8 [] [] 0 0 rfl rfl

/-- C9: in-range cells of the built grid hold exactly the last record in
input order that the loop maps to that cell (last write wins; no
merging), and are empty when no record maps there. -/
theorem spec_C9 (data : List ContributionDay) (today : Int) (c r : Nat)
    (hc : c < 52) (hr : r < 7) :
    getCell (getContributionMatrix data today) c r
      = lastPlaced today (oneYearAgo today) data c r :=
  getCell_getContributionMatrix data today c r hc hr

/-- Witness for C9: two records on the same date (2024-06-01, reference
2024-06-15T00:00Z) collide in cell (49, 6) and the second one wins. -/
theorem spec_C9_witness :
    getCell (getContributionMatrix
        [ContributionDay.mk 2 (some 1717200000000),
         ContributionDay.mk 5 (some 1717200000000)] 1718409600000) 49 6
      = lastPlaced 1718409600000 (oneYearAgo 1718409600000)
          [ContributionDay.mk 2 (some 1717200000000),
           ContributionDay.mk 5 (some 1717200000000)] 49 6 ∧
    lastPlaced 1718409600000 (oneYearAgo 1718409600000)
        [ContributionDay.mk 2 (some 1717200000000),
         ContributionDay.mk 5 (some 1717200000000)] 49 6
      = some (ContributionDay.mk 5 (some 1717200000000)) :=
  ⟨spec_C9 [ContributionDay.mk 2 (some 1717200000000),
      ContributionDay.mk 5 (some 1717200000000)] 1718409600000 49 6
      (by decide) (by decide),
   by decide⟩

/-- C10: for a record that passes the window check and the week-index
check, the write is in bounds: the column `51 - weekIndex` lies in
`0..51` (the week index is never negative because the date is not after
the reference instant) and the row lies in `0..6`. -/
theorem spec_C10 (today date : Int) (_hlo : oneYearAgo today ≤ date)
    (hhi : date ≤ today) (hwk : weekIndexOf today date < 52) :
    0 ≤ 51 - weekIndexOf today date ∧ 51 - weekIndexOf today date ≤ 51 ∧
    0 ≤ getDay date ∧ getDay date ≤ 6 := by
  have h1 := weekIndexOf_nonneg today date hhi
  have h2 := getDay_bounds date
  omega

/-- Witness for C10 at the reference instant 2024-06-15T00:00Z and a
record dated 2024-06-01. -/
theorem spec_C10_witness :
    0 ≤ 51 - weekIndexOf 1718409600000 1717200000000 ∧
    51 - weekIndexOf 1718409600000 1717200000000 ≤ 51 ∧
    0 ≤ getDay 1717200000000 ∧ getDay 1717200000000 ≤ 6 :=
  spec_C10 1718409600000 1717200000000 (by decide) (by decide) (by decide)

end GithubAnalyzer
